import Mathlib

/-!
Shallow embedding of the CPU monitoring engine (`cpu_core.py`) and proofs
about its published behaviour.

Conventions of the embedding:
* wall-clock times and CPU/memory percentages are rationals (`ℚ`);
* the per-PID CPU history dictionary `process_cpu_history` is a function
  `Nat → List (ℚ × ℚ)` (empty list = PID absent);
* the process cache `process_cache` is a function
  `Nat → Option (ProcessInfo × ℚ)` pairing the cached info with its
  capture timestamp;
* fallible OS reads (`psutil` calls) are modelled by an explicit outcome
  value `ProcRead` passed to the function that performs the read.
-/

/-- Mirror of the `ProcessInfo` dataclass of `cpu_core.py`. -/
structure ProcessInfo where
  name : String
  pid : Nat
  cpu_percent : ℚ
  memory_percent : ℚ
  username : String
  status : String
  command : String
  create_time : ℚ
  threads : Nat
  avg_cpu_percent : ℚ := 0
deriving DecidableEq, Repr

/-- `self.history_window` : the rolling window is 180 seconds. -/
def history_window : ℚ := 180

/-- `self.cache_ttl` : process-cache entries live for 5 seconds. -/
def cache_ttl : ℚ := 5

/-- `self.history_max_points` : the system history ring keeps 100 points. -/
def history_max_points : Nat := 100

/-- `_calculate_average_cpu` applied to one PID's sample list: keep the
samples with `t >= current_time - self.history_window` and average their
CPU values; `0.0` for an empty result (the code's filter has no upper
bound on `t`). -/
def calculate_average_cpu (history : List (ℚ × ℚ)) (current_time : ℚ) : ℚ :=
  let cutoff_time := current_time - history_window
  let recent_history := history.filter (fun s => cutoff_time ≤ s.1)
  if recent_history.isEmpty then 0
  else (recent_history.map Prod.snd).sum / recent_history.length

/-- The dictionary lookup wrapped around `_calculate_average_cpu`: a PID
with no entry in `process_cpu_history` yields `0.0`. -/
def RollingAverage (process_cpu_history : Nat → Option (List (ℚ × ℚ)))
    (pid : Nat) (current_time : ℚ) : ℚ :=
  match process_cpu_history pid with
  | none => 0
  | some h => calculate_average_cpu h current_time

/-- Status string computed at `cpu_core.py:172` and `cpu_core.py:204`:
`"HIGH" if cpu_percent > self.threshold else "Normal"`.  It is the
instantaneous CPU percent that is compared with the threshold. -/
def statusOf (threshold cpu_percent : ℚ) : String :=
  if threshold < cpu_percent then "HIGH" else "Normal"

/-- The mutable per-PID state threaded through `_get_process_info`:
the process cache and the per-PID CPU history. -/
structure EngineState where
  process_cache : Nat → Option (ProcessInfo × ℚ)
  process_cpu_history : Nat → List (ℚ × ℚ)

/-- `self.process_cache[pid] = {'info': info, 'timestamp': ts}`. -/
def cacheInsert (c : Nat → Option (ProcessInfo × ℚ)) (pid : Nat)
    (v : ProcessInfo × ℚ) : Nat → Option (ProcessInfo × ℚ) :=
  fun q => if q = pid then some v else c q

/-- `del self.process_cache[pid]` (no-op when absent, as guarded in the code). -/
def cacheErase (c : Nat → Option (ProcessInfo × ℚ)) (pid : Nat) :
    Nat → Option (ProcessInfo × ℚ) :=
  fun q => if q = pid then none else c q

/-- Overwrite one PID's sample list in `process_cpu_history`. -/
def histSet (h : Nat → List (ℚ × ℚ)) (pid : Nat) (l : List (ℚ × ℚ)) :
    Nat → List (ℚ × ℚ) :=
  fun q => if q = pid then l else h q

/-- Outcome of the per-process OS reads issued inside the full-read branch
of `_get_process_info`.  `ok` carries the values the reads return;
`Option` models the individually guarded reads that may raise
(`username`, `cmdline`, `create_time`, `num_threads`).  `accessDenied`
carries the process name when the retry `process.name()` inside the
`AccessDenied` handler succeeds, `none` when it raises again. -/
inductive ProcRead where
  | ok (name : String) (cpu mem : ℚ) (username : Option String)
      (cmdline : Option (List String)) (exe : String)
      (create_time : Option ℚ) (num_threads : Option Nat) : ProcRead
  | noSuchProcess : ProcRead
  | accessDenied (name : Option String) : ProcRead

/-- The cache-miss branch of `_get_process_info` (`cpu_core.py:181-281`):
a full read through `process.oneshot()`, updating the CPU history and the
cache.  The `AccessDenied` handler fills unavailable fields with sentinel
values and caches the degraded entry. -/
def full_read (threshold : ℚ) (pid : Nat) (now : ℚ) (r : ProcRead)
    (st : EngineState) : Option ProcessInfo × EngineState :=
  match r with
  | .ok name cpu mem username cmdline exe create_time num_threads =>
      let hist2 := st.process_cpu_history pid ++ [(now, cpu)]
      let info : ProcessInfo :=
        { name := name
          pid := pid
          cpu_percent := cpu
          memory_percent := mem
          username := username.getD "N/A"
          status := statusOf threshold cpu
          command :=
            match cmdline with
            | some l => if l.isEmpty then exe else " ".intercalate l
            | none => name
          create_time := create_time.getD 0
          threads := num_threads.getD 0
          avg_cpu_percent := calculate_average_cpu hist2 now }
      (some info,
        ⟨cacheInsert st.process_cache pid (info, now),
         histSet st.process_cpu_history pid hist2⟩)
  | .noSuchProcess =>
      (none, ⟨cacheErase st.process_cache pid, st.process_cpu_history⟩)
  | .accessDenied nameOpt =>
      match nameOpt with
      | some name =>
          let info : ProcessInfo :=
            { name := name
              pid := pid
              cpu_percent := 0
              memory_percent := 0
              username := "N/A"
              status := "N/A"
              command := "Access Denied"
              create_time := 0
              threads := 0
              avg_cpu_percent := 0 }
          (some info,
            ⟨cacheInsert st.process_cache pid (info, now),
             st.process_cpu_history⟩)
      | none => (none, st)

/-- The cache-hit fast path of `_get_process_info` (`cpu_core.py:166-176`):
only CPU and memory percent are re-read; `status` and `avg_cpu_percent`
are recomputed from them and the entry is mutated in place (its capture
timestamp is unchanged). -/
def cheap_refresh (threshold : ℚ) (pid : Nat) (now : ℚ) (cpu mem : ℚ)
    (info : ProcessInfo) (ts : ℚ) (st : EngineState) :
    ProcessInfo × EngineState :=
  let hist2 := st.process_cpu_history pid ++ [(now, cpu)]
  let info2 :=
    { info with
      cpu_percent := cpu
      memory_percent := mem
      status := statusOf threshold cpu
      avg_cpu_percent := calculate_average_cpu hist2 now }
  (info2,
    ⟨cacheInsert st.process_cache pid (info2, ts),
     histSet st.process_cpu_history pid hist2⟩)

/-- `_get_process_info` (`cpu_core.py:157-281`).  A cached entry younger
than `cache_ttl` takes the cheap path; a failing cheap refresh (the
process vanished or became unreadable) deletes the cache entry and falls
through to the full read, as does a stale or missing entry. -/
def get_process_info (threshold : ℚ) (pid : Nat) (now : ℚ) (r : ProcRead)
    (st : EngineState) : Option ProcessInfo × EngineState :=
  match st.process_cache pid with
  | some (info, ts) =>
      if now - ts < cache_ttl then
        match r with
        | .ok _ cpu mem _ _ _ _ _ =>
            let (info2, st2) := cheap_refresh threshold pid now cpu mem info ts st
            (some info2, st2)
        | _ =>
            full_read threshold pid now r
              ⟨cacheErase st.process_cache pid, st.process_cpu_history⟩
      else full_read threshold pid now r st
  | none => full_read threshold pid now r st

/-- Outcome of `process.terminate()` as raised by the OS layer. -/
inductive TermOutcome where
  | ok : TermOutcome
  | noSuchProcess : TermOutcome
  | accessDenied : TermOutcome
  | otherError : TermOutcome

/-- `kill_process` (`cpu_core.py:452-485`).  The cache is the set of
cached PIDs (the part of the entry the function touches).  On a clean
`terminate()` the PID's cache entry is evicted and `True` is returned;
`NoSuchProcess` and other errors yield `False`; `AccessDenied` yields
`False` except on `win32`, where a `taskkill` fallback runs, evicts the
cache entry, and reports `True` unless the `os.system` call itself
raises. -/
def kill_process (platform : String) (outcome : TermOutcome)
    (taskkillRaises : Bool) (cache : List Nat) (pid : Nat) :
    Bool × List Nat :=
  match outcome with
  | .ok => (true, cache.filter (fun q => q ≠ pid))
  | .noSuchProcess => (false, cache)
  | .accessDenied =>
      if platform = "win32" then
        if taskkillRaises then (false, cache)
        else (true, cache.filter (fun q => q ≠ pid))
      else (false, cache)
  | .otherError => (false, cache)

/-- `self.history_data`: three parallel lists updated together under the
lock. -/
structure HistoryData where
  cpu : List ℚ
  memory : List ℚ
  timestamps : List ℚ
deriving DecidableEq

/-- Python's `lst[-maxPoints:]` for the over-full case. -/
def keepLast (maxPoints : Nat) (l : List α) : List α :=
  l.drop (l.length - maxPoints)

/-- The history update of `_update_system_stats` (`cpu_core.py:322-331`):
append the new point to all three lists, then, if the `cpu` list has grown
past `history_max_points`, trim all three to their last
`history_max_points` elements. -/
def update_history (hd : HistoryData) (cpu mem ts : ℚ) : HistoryData :=
  let cpu2 := hd.cpu ++ [cpu]
  let mem2 := hd.memory ++ [mem]
  let ts2 := hd.timestamps ++ [ts]
  if history_max_points < cpu2.length then
    ⟨keepLast history_max_points cpu2,
     keepLast history_max_points mem2,
     keepLast history_max_points ts2⟩
  else ⟨cpu2, mem2, ts2⟩

/-- `get_history_data` (`cpu_core.py:443-450`): copies of the three lists. -/
def get_history_data (hd : HistoryData) : HistoryData :=
  ⟨hd.cpu, hd.memory, hd.timestamps⟩

/-- The loop-control state observed by `_monitor_loop`:
`self.update_event` and the local `last_full_update`. -/
structure LoopState where
  update_event : Bool
  last_full_update : ℚ
deriving DecidableEq

/-- `request_update` (`cpu_core.py:433-436`): `self.update_event.set()`. -/
def request_update (s : LoopState) : LoopState :=
  { s with update_event := true }

/-- `cpu_core.py:353`: a full update runs when the event is set or 5
seconds have passed since the last full update. -/
def full_update_needed (s : LoopState) (now : ℚ) : Bool :=
  s.update_event || decide (5 ≤ now - s.last_full_update)

/-- One wake-up of `_monitor_loop` restricted to the full-update decision
(`cpu_core.py:352-358`): returns the new loop state and the number of
full-tick refreshes performed during this wake-up. -/
def loop_wake (s : LoopState) (now : ℚ) : LoopState × Nat :=
  if full_update_needed s now then
    ({ update_event := false, last_full_update := now }, 1)
  else (s, 0)

/-- The final sort of `_monitor_loop` (`cpu_core.py:396`):
`processes.sort(key=lambda x: x.avg_cpu_percent, reverse=True)`. -/
def byAvgDesc (a b : ProcessInfo) : Prop :=
  b.avg_cpu_percent ≤ a.avg_cpu_percent

instance : DecidableRel byAvgDesc := fun a b =>
  inferInstanceAs (Decidable (b.avg_cpu_percent ≤ a.avg_cpu_percent))

instance : IsTotal ProcessInfo byAvgDesc :=
  ⟨fun a b => le_total b.avg_cpu_percent a.avg_cpu_percent⟩

instance : IsTrans ProcessInfo byAvgDesc :=
  ⟨fun _ _ _ h1 h2 => le_trans h2 h1⟩

/-- The pre-ranking of `_monitor_loop` (`cpu_core.py:369`): candidates
from `process_iter` sorted by last-known instantaneous CPU descending
(`None` counting as 0). -/
def byCpuDesc (a b : Nat × Option ℚ) : Prop :=
  b.2.getD 0 ≤ a.2.getD 0

instance : DecidableRel byCpuDesc := fun a b =>
  inferInstanceAs (Decidable (b.2.getD 0 ≤ a.2.getD 0))

instance : IsTotal (Nat × Option ℚ) byCpuDesc :=
  ⟨fun a b => le_total (b.2.getD 0) (a.2.getD 0)⟩

instance : IsTrans (Nat × Option ℚ) byCpuDesc :=
  ⟨fun _ _ _ h1 h2 => le_trans h2 h1⟩

/-- The detailed-collection loop of a full tick (`cpu_core.py:373-376`):
call `_get_process_info` on each candidate PID in order, keeping the
non-`None` results and threading the cache/history state. -/
def run_tick (threshold : ℚ) (now : ℚ) (env : Nat → ProcRead) :
    EngineState → List Nat → List ProcessInfo × EngineState
  | st, [] => ([], st)
  | st, pid :: rest =>
      let step := get_process_info threshold pid now (env pid) st
      let tail := run_tick threshold now env step.2 rest
      (match step.1 with
       | some info => info :: tail.1
       | none => tail.1, tail.2)

/-- One full tick of `_monitor_loop` (`cpu_core.py:360-400`): pre-rank
the `process_iter` candidates by instantaneous CPU, keep the top 100,
collect detailed info; if that yields nothing, fall back to the first
100 raw PIDs; finally sort by rolling-average CPU descending and publish. -/
def monitor_full_tick (threshold : ℚ) (now : ℚ) (env : Nat → ProcRead)
    (st : EngineState) (candidates : List (Nat × Option ℚ))
    (rawPids : List Nat) : List ProcessInfo × EngineState :=
  let pre := ((candidates.insertionSort byCpuDesc).take 100).map Prod.fst
  let collected := run_tick threshold now env st pre
  let collected2 :=
    if collected.1.isEmpty then
      run_tick threshold now env collected.2 (rawPids.take 100)
    else collected
  ((collected2.1).insertionSort byAvgDesc, collected2.2)

/-- `get_process_list` (`cpu_core.py:428-431`): a copy of the published
process list. -/
def get_process_list (process_data : List ProcessInfo) : List ProcessInfo :=
  process_data

/-- Applying `request_update` at least once is the same as applying it
once: the event flag saturates at `true`. -/
theorem request_update_iterate (n : Nat) (s : LoopState) :
    request_update^[n + 1] s = request_update s := by
  induction n with
  | zero => rfl
  | succ k ih =>
      rw [Function.iterate_succ_apply', ih]
      rfl

/-- Unfolding equation for `_calculate_average_cpu` with the window
written out as the literal 180. -/
theorem calculate_average_cpu_eq (h : List (ℚ × ℚ)) (now : ℚ) :
    calculate_average_cpu h now =
      if (h.filter (fun s => now - 180 ≤ s.1)).isEmpty then 0
      else ((h.filter (fun s => now - 180 ≤ s.1)).map Prod.snd).sum
            / (h.filter (fun s => now - 180 ≤ s.1)).length := rfl

/-- C2: the claim's own test vector fails on the code.  With samples
(0,10),(60,20),(120,30) and now = 150 the rolling average is 20, but the
window cutoff is now - 180 = -30, so an extra sample at t = -10 lies
inside the filter and changes the result to 55/2: it does not leave the
result unchanged as the claim demands. -/
theorem C2_counterexample :
    calculate_average_cpu [(0, 10), (60, 20), (120, 30)] 150 = 20 ∧
    calculate_average_cpu [((-10 : ℚ), 50), (0, 10), (60, 20), (120, 30)] 150 ≠ 20 := by
  constructor <;> norm_num [calculate_average_cpu, history_window]

/-- C2 (amended): the rolling-average query keeps exactly the samples
with timestamp at least now - 180 (the code imposes no upper bound),
returns 0 when nothing remains — in particular for a PID with no history
entry — and otherwise returns the arithmetic mean of the kept CPU values;
for samples (0,10),(60,20),(120,30) and now = 150 it returns 20.0, and a
further sample at t = -10 falls inside the window (cutoff -30) and moves
the result to 55/2. -/
theorem C2_rolling_average_amended :
    (∀ (m : Nat → Option (List (ℚ × ℚ))) (pid : Nat) (now : ℚ),
        m pid = none → RollingAverage m pid now = 0) ∧
    (∀ (h : List (ℚ × ℚ)) (now : ℚ),
        h.filter (fun s => now - 180 ≤ s.1) = [] →
        calculate_average_cpu h now = 0) ∧
    (∀ (h : List (ℚ × ℚ)) (now : ℚ),
        h.filter (fun s => now - 180 ≤ s.1) ≠ [] →
        calculate_average_cpu h now * ((h.filter (fun s => now - 180 ≤ s.1)).length : ℚ)
          = ((h.filter (fun s => now - 180 ≤ s.1)).map Prod.snd).sum) ∧
    calculate_average_cpu [(0, 10), (60, 20), (120, 30)] 150 = 20 ∧
    calculate_average_cpu [((-10 : ℚ), 50), (0, 10), (60, 20), (120, 30)] 150 = 55 / 2 := by
  refine ⟨?_, ?_, ?_, ?_, ?_⟩
  · intro m pid now h
    simp [RollingAverage, h]
  · intro h now hf
    rw [calculate_average_cpu_eq, hf]
    rfl
  · intro h now hf
    rw [calculate_average_cpu_eq, if_neg (by simpa [List.isEmpty_iff] using hf)]
    have hlen : (((h.filter (fun s => now - 180 ≤ s.1)).length : ℕ) : ℚ) ≠ 0 := by
      exact_mod_cast (List.length_pos.mpr hf).ne'
    exact div_mul_cancel₀ _ hlen
  · norm_num [calculate_average_cpu, history_window]
  · norm_num [calculate_average_cpu, history_window]

/-- C2 (witness): the three general conjuncts of the amended statement,
instantiated on concrete inputs. -/
theorem C2_witness :
    RollingAverage (fun _ => none) 5 150 = 0 ∧
    calculate_average_cpu [((-200 : ℚ), 9)] 60 = 0 ∧
    calculate_average_cpu [(0, 10), (60, 20), (120, 30)] 150 * ((3 : ℕ) : ℚ) = 60 := by
  refine ⟨C2_rolling_average_amended.1 _ 5 150 rfl,
          C2_rolling_average_amended.2.1 _ 60 (by norm_num), ?_⟩
  have h := C2_rolling_average_amended.2.2.1
      [(0, 10), (60, 20), (120, 30)] 150
      (by norm_num; exact List.cons_ne_nil _ _)
  norm_num at h
  norm_num [h]

/-- C9: a future-dated sample does contribute to the rolling average.
With the single sample (t = 330, cpu = 100) and now = 150 the code
returns 100, although 330 > 150 lies outside the claimed window
[now - 180, now]; had the sample been excluded the result would have
been 0. -/
theorem C9_counterexample :
    calculate_average_cpu [(330, 100)] 150 = 100 ∧
    ¬ ((330 : ℚ) ≤ 150) ∧ (100 : ℚ) ≠ 0 := by
  refine ⟨?_, by norm_num, by norm_num⟩
  norm_num [calculate_average_cpu, history_window]

/-- C9 (amended): the rolling average is computed only from samples with
timestamp at least now - 180 — pruning older samples never changes the
result — but the filter has no upper bound, so future-dated samples do
contribute: adding (330,100) to [(0,10)] at now = 150 moves the average
from 10 to 55. -/
theorem C9_window_amended :
    (∀ (h : List (ℚ × ℚ)) (now : ℚ),
        calculate_average_cpu (h.filter (fun s => now - 180 ≤ s.1)) now
          = calculate_average_cpu h now) ∧
    (∀ (h : List (ℚ × ℚ)) (now : ℚ) (s : ℚ × ℚ), s.1 < now - 180 →
        calculate_average_cpu (s :: h) now = calculate_average_cpu h now) ∧
    calculate_average_cpu [(0, 10), (330, 100)] 150 = 55 ∧
    calculate_average_cpu [(0, 10)] 150 = 10 := by
  refine ⟨?_, ?_, ?_, ?_⟩
  · intro h now
    rw [calculate_average_cpu_eq, calculate_average_cpu_eq h,
      List.filter_filter]
    simp only [Bool.and_self]
  · intro h now s hs
    rw [calculate_average_cpu_eq, calculate_average_cpu_eq,
      List.filter_cons_of_neg (by simpa using not_le.mpr hs)]
  · norm_num [calculate_average_cpu, history_window]
  · norm_num [calculate_average_cpu, history_window]

/-- C9 (witness): the stale-sample conjunct of the amended statement at a
concrete input: a sample at t = -200 (before the cutoff -30) leaves the
average over [(0,10)] at now = 150 unchanged. -/
theorem C9_witness :
    calculate_average_cpu [((-200 : ℚ), 7), (0, 10)] 150
      = calculate_average_cpu [(0, 10)] 150 := by
  exact C9_window_amended.2.1 [(0, 10)] 150 ((-200 : ℚ), 7) (by norm_num)


set_option maxRecDepth 10000

/-- C5: the system-wide history ring is bounded by 100 points — one
update keeps the `cpu` list within `history_max_points` whenever it was
within the bound before — and eviction is FIFO: folding 150 points
(values 0..149, oldest first) into an empty history leaves exactly the
last 100 points 50..149, in oldest-first order, in all three lists. -/
theorem C5_history_ring :
    (∀ (hd : HistoryData) (c m t : ℚ), hd.cpu.length ≤ history_max_points →
        (update_history hd c m t).cpu.length ≤ history_max_points) ∧
    ((((List.range 150).map (fun n => (n : ℚ))).foldl
        (fun hd x => update_history hd x x x) ⟨[], [], []⟩)
      = ⟨((List.range 150).map (fun n => (n : ℚ))).drop 50,
         ((List.range 150).map (fun n => (n : ℚ))).drop 50,
         ((List.range 150).map (fun n => (n : ℚ))).drop 50⟩) := by
  constructor
  · intro hd c m t hlen
    simp only [update_history, keepLast, history_max_points] at *
    split
    · simp only [List.length_drop, List.length_append, List.length_cons,
        List.length_nil]
      omega
    · rename_i hle
      simp only [List.length_append, List.length_cons, List.length_nil] at hle ⊢
      omega
  · decide

/-- C5 (witness): the bound conjunct at a concrete history. -/
theorem C5_witness :
    (update_history ⟨[1], [2], [3]⟩ 4 5 6).cpu.length ≤ history_max_points := by
  exact C5_history_ring.1 ⟨[1], [2], [3]⟩ 4 5 6 (by decide)

/-- C10: the three parallel history lists keep equal lengths — the only
mutating operation appends one value to each list and trims all three
together — and `get_history_data` returns exactly those three lists, so
a returned history has as many cpu values as memory values and
timestamps. -/
theorem C10_parallel_history_lengths :
    (∀ (hd : HistoryData) (c m t : ℚ),
        hd.cpu.length = hd.memory.length →
        hd.memory.length = hd.timestamps.length →
        (update_history hd c m t).cpu.length = (update_history hd c m t).memory.length ∧
        (update_history hd c m t).memory.length = (update_history hd c m t).timestamps.length) ∧
    (∀ hd : HistoryData, get_history_data hd = ⟨hd.cpu, hd.memory, hd.timestamps⟩) ∧
    (∀ hd : HistoryData,
        hd.cpu.length = hd.memory.length →
        hd.memory.length = hd.timestamps.length →
        (get_history_data hd).cpu.length = (get_history_data hd).memory.length ∧
        (get_history_data hd).memory.length = (get_history_data hd).timestamps.length) := by
  refine ⟨?_, fun hd => rfl, fun hd h1 h2 => ⟨h1, h2⟩⟩
  intro hd c m t h1 h2
  simp only [update_history, keepLast, history_max_points] at *
  split
  · simp only [List.length_drop, List.length_append, List.length_cons,
      List.length_nil]
    omega
  · rename_i hle
    simp only [List.length_append, List.length_cons, List.length_nil] at hle ⊢
    omega

/-- C10 (witness): the invariant conjuncts at a concrete history. -/
theorem C10_witness :
    (update_history ⟨[1], [2], [3]⟩ 4 5 6).cpu.length
        = (update_history ⟨[1], [2], [3]⟩ 4 5 6).memory.length ∧
    (update_history ⟨[1], [2], [3]⟩ 4 5 6).memory.length
        = (update_history ⟨[1], [2], [3]⟩ 4 5 6).timestamps.length := by
  exact C10_parallel_history_lengths.1 ⟨[1], [2], [3]⟩ 4 5 6 (by decide) (by decide)

/-- C7: `request_update` is idempotent and coalescing — any n ≥ 1 calls
before the loop wakes leave the same flag state as one call, and the next
wake-up performs exactly one full-tick refresh and clears the signal. -/
theorem C7_request_update_coalesced :
    ∀ (s : LoopState) (now : ℚ) (n : Nat), 1 ≤ n →
      request_update^[n] s = request_update s ∧
      (loop_wake (request_update^[n] s) now).2 = 1 ∧
      (loop_wake (request_update^[n] s) now).1.update_event = false := by
  intro s now n hn
  obtain ⟨k, rfl⟩ := Nat.exists_eq_add_of_le hn
  rw [Nat.add_comm 1 k, request_update_iterate]
  refine ⟨rfl, ?_, ?_⟩ <;>
    simp [loop_wake, full_update_needed, request_update]

/-- C7 (witness): five requests before the wake-up at time 1 behave as
one request and produce exactly one refresh. -/
theorem C7_witness :
    request_update^[5] ⟨false, 0⟩ = request_update ⟨false, 0⟩ ∧
    (loop_wake (request_update^[5] ⟨false, 0⟩) 1).2 = 1 ∧
    (loop_wake (request_update^[5] ⟨false, 0⟩) 1).1.update_event = false := by
  exact C7_request_update_coalesced ⟨false, 0⟩ 1 5 (by decide)

/-- Helper: the status string written by the successful-read branches is
always one of "HIGH" and "Normal". -/
theorem statusOf_cases (threshold cpu : ℚ) :
    statusOf threshold cpu = "HIGH" ∨ statusOf threshold cpu = "Normal" := by
  unfold statusOf
  split
  · exact Or.inl rfl
  · exact Or.inr rfl

/-- C1: the status decision uses the instantaneous CPU percent, not the
rolling average.  A process read with instantaneous cpu 0 whose window
already holds a sample of 150 is published with rolling average 75,
above the threshold 70, yet its status is "Normal" (and the high marker
the code uses is the string "HIGH", never "High"). -/
theorem C1_counterexample :
    ((get_process_info 70 1 1 (ProcRead.ok "p" 0 0 none none "x" none none)
        ⟨fun _ => none, fun q => if q = 1 then [(0, 150)] else []⟩).1.map
      (fun i => (i.status, i.avg_cpu_percent))) = some ("Normal", 75) ∧
    (70 : ℚ) < 75 ∧ ("Normal" : String) ≠ "High" := by
  refine ⟨?_, by norm_num, by decide⟩
  norm_num [get_process_info, full_read, statusOf, calculate_average_cpu,
    history_window]

/-- C1 (amended): for every process read successfully (cheap or full
path), the published status field is "HIGH" if and only if the
instantaneous CPU percent exceeds the current threshold, and "Normal"
otherwise; the rolling average does not enter the decision. -/
theorem C1_status_amended :
    ∀ (threshold : ℚ) (pid : Nat) (now : ℚ) (st : EngineState)
      (name : String) (cpu mem : ℚ) (u : Option String)
      (cl : Option (List String)) (exe : String) (ct : Option ℚ)
      (th : Option Nat),
      ((get_process_info threshold pid now
          (ProcRead.ok name cpu mem u cl exe ct th) st).1.map ProcessInfo.status)
        = some (if threshold < cpu then "HIGH" else "Normal") := by
  intro threshold pid now st name cpu mem u cl exe ct th
  cases hcache : st.process_cache pid with
  | none => simp [get_process_info, hcache, full_read, statusOf]
  | some p =>
      obtain ⟨info, ts⟩ := p
      by_cases hts : now - ts < cache_ttl
      · simp [get_process_info, hcache, hts, cheap_refresh, statusOf]
      · simp [get_process_info, hcache, hts, full_read, statusOf]

/-- Concrete `ProcessInfo` used by the cache-path witnesses. -/
def sampleInfo : ProcessInfo :=
  ⟨"init", 1, 2, 3, "root", "Normal", "/sbin/init", 0, 1, 2⟩

/-- Concrete engine state: PID 1 cached at time 0 with an empty history. -/
def sampleState : EngineState :=
  ⟨fun q => if q = 1 then some (sampleInfo, 0) else none, fun _ => []⟩

/-- C3: a cached entry of age strictly below the 5-second TTL takes the
cheap path — the cached record is returned with CPU and memory percent
(and the fields derived from them) refreshed in place, the identity
fields are untouched and no full re-read happens, the capture timestamp
staying what it was — while age at or past the TTL forces the full
re-read. -/
theorem C3_cache_ttl :
    ∀ (threshold : ℚ) (pid : Nat) (now : ℚ) (st : EngineState)
      (info : ProcessInfo) (ts : ℚ) (name : String) (cpu mem : ℚ)
      (u : Option String) (cl : Option (List String)) (exe : String)
      (ct : Option ℚ) (th : Option Nat),
      st.process_cache pid = some (info, ts) →
      ((now - ts < cache_ttl →
        get_process_info threshold pid now
            (ProcRead.ok name cpu mem u cl exe ct th) st
          = (some (cheap_refresh threshold pid now cpu mem info ts st).1,
             (cheap_refresh threshold pid now cpu mem info ts st).2) ∧
        (cheap_refresh threshold pid now cpu mem info ts st).1.name = info.name ∧
        (cheap_refresh threshold pid now cpu mem info ts st).1.username = info.username ∧
        (cheap_refresh threshold pid now cpu mem info ts st).1.command = info.command ∧
        (cheap_refresh threshold pid now cpu mem info ts st).1.create_time = info.create_time ∧
        (cheap_refresh threshold pid now cpu mem info ts st).1.threads = info.threads ∧
        (cheap_refresh threshold pid now cpu mem info ts st).2.process_cache pid
          = some ((cheap_refresh threshold pid now cpu mem info ts st).1, ts)) ∧
      (cache_ttl ≤ now - ts →
        ∀ r, get_process_info threshold pid now r st
          = full_read threshold pid now r st)) := by
  intro threshold pid now st info ts name cpu mem u cl exe ct th hcache
  constructor
  · intro hfresh
    refine ⟨?_, rfl, rfl, rfl, rfl, rfl, ?_⟩
    · simp [get_process_info, hcache, hfresh]
    · simp [cheap_refresh, cacheInsert]
  · intro hstale r
    have hnot : ¬ (now - ts < cache_ttl) := not_lt.mpr hstale
    cases r <;> simp [get_process_info, hcache, hnot]

/-- C3 (witness): an entry captured at t = 0 is cheaply refreshed when
queried at t = 4.9999 and fully re-read when queried at t = 5.0001. -/
theorem C3_witness :
    (get_process_info 70 1 (49999/10000)
        (ProcRead.ok "init" 5 6 none none "x" none none) sampleState
      = (some (cheap_refresh 70 1 (49999/10000) 5 6 sampleInfo 0 sampleState).1,
         (cheap_refresh 70 1 (49999/10000) 5 6 sampleInfo 0 sampleState).2)) ∧
    (get_process_info 70 1 (50001/10000)
        (ProcRead.ok "init" 5 6 none none "x" none none) sampleState
      = full_read 70 1 (50001/10000)
          (ProcRead.ok "init" 5 6 none none "x" none none) sampleState) := by
  constructor
  · exact ((C3_cache_ttl 70 1 (49999/10000) sampleState sampleInfo 0
      "init" 5 6 none none "x" none none (by simp [sampleState])).1
      (by norm_num [cache_ttl])).1
  · exact (C3_cache_ttl 70 1 (50001/10000) sampleState sampleInfo 0
      "init" 5 6 none none "x" none none (by simp [sampleState])).2
      (by norm_num [cache_ttl]) _

/-- C8: when introspection is denied the read degrades to sentinel
values, but the status field becomes the string "N/A", which is none of
the claimed enum values Normal, High, Unknown. -/
theorem C8_counterexample :
    ((get_process_info 70 2 10 (ProcRead.accessDenied (some "svc"))
        ⟨fun _ => none, fun _ => []⟩).1.map ProcessInfo.status) = some "N/A" ∧
    ¬ (("N/A" : String) = "Normal" ∨ ("N/A" : String) = "High" ∨
       ("N/A" : String) = "Unknown") := by
  constructor
  · simp [get_process_info, full_read]
  · decide

/-- C8 (amended): when per-process introspection is denied and the
process name remains obtainable, the read still succeeds, returning a
ProcessInfo whose unavailable fields hold the sentinel values ("N/A"
user, 0 numeric fields, command "Access Denied") and whose status is
"N/A"; when even the name is refused, the read yields nothing.  Every
status the engine publishes is one of "HIGH", "Normal", "N/A". -/
theorem C8_denied_amended :
    (∀ (threshold : ℚ) (pid : Nat) (now : ℚ) (st : EngineState) (name : String),
        (get_process_info threshold pid now
            (ProcRead.accessDenied (some name)) st).1
          = some ⟨name, pid, 0, 0, "N/A", "N/A", "Access Denied", 0, 0, 0⟩) ∧
    (∀ (threshold : ℚ) (pid : Nat) (now : ℚ) (st : EngineState),
        (get_process_info threshold pid now
            (ProcRead.accessDenied none) st).1 = none) ∧
    (∀ (threshold : ℚ) (pid : Nat) (now : ℚ) (r : ProcRead) (st : EngineState)
        (info : ProcessInfo),
        (get_process_info threshold pid now r st).1 = some info →
        info.status = "HIGH" ∨ info.status = "Normal" ∨ info.status = "N/A") := by
  refine ⟨?_, ?_, ?_⟩
  · intro threshold pid now st name
    cases hcache : st.process_cache pid with
    | none => simp [get_process_info, hcache, full_read]
    | some p =>
        obtain ⟨info, ts⟩ := p
        by_cases hts : now - ts < cache_ttl <;>
          simp [get_process_info, hcache, hts, full_read]
  · intro threshold pid now st
    cases hcache : st.process_cache pid with
    | none => simp [get_process_info, hcache, full_read]
    | some p =>
        obtain ⟨info, ts⟩ := p
        by_cases hts : now - ts < cache_ttl <;>
          simp [get_process_info, hcache, hts, full_read]
  · intro threshold pid now r st info hsome
    have hfull : ∀ st' : EngineState,
        (full_read threshold pid now r st').1 = some info →
        info.status = "HIGH" ∨ info.status = "Normal" ∨ info.status = "N/A" := by
      intro st' h
      cases r with
      | ok name cpu mem u cl exe ct th =>
          simp [full_read] at h
          rcases statusOf_cases threshold cpu with hs | hs <;>
            simp [← h, hs]
      | noSuchProcess => simp [full_read] at h
      | accessDenied nameOpt =>
          cases nameOpt with
          | none => simp [full_read] at h
          | some name =>
              simp [full_read] at h
              simp [← h]
    cases hcache : st.process_cache pid with
    | none =>
        rw [get_process_info, hcache] at hsome
        exact hfull st hsome
    | some p =>
        obtain ⟨cinfo, ts⟩ := p
        by_cases hts : now - ts < cache_ttl
        · cases r with
          | ok name cpu mem u cl exe ct th =>
              rw [get_process_info, hcache] at hsome
              simp only [if_pos hts] at hsome
              have : info = (cheap_refresh threshold pid now cpu mem cinfo ts st).1 := by
                simpa using hsome.symm
              rcases statusOf_cases threshold cpu with hs | hs <;>
                simp [this, cheap_refresh, hs]
          | noSuchProcess =>
              rw [get_process_info, hcache] at hsome
              simp only [if_pos hts] at hsome
              exact hfull _ hsome
          | accessDenied nameOpt =>
              rw [get_process_info, hcache] at hsome
              simp only [if_pos hts] at hsome
              exact hfull _ hsome
        · rw [get_process_info, hcache] at hsome
          simp only [if_neg hts] at hsome
          exact hfull st hsome

/-- C8 (witness): the status-range conjunct applied to the concrete
denied read of PID 2. -/
theorem C8_witness :
    (⟨"svc", 2, 0, 0, "N/A", "N/A", "Access Denied", 0, 0, 0⟩ : ProcessInfo).status = "HIGH" ∨
    (⟨"svc", 2, 0, 0, "N/A", "N/A", "Access Denied", 0, 0, 0⟩ : ProcessInfo).status = "Normal" ∨
    (⟨"svc", 2, 0, 0, "N/A", "N/A", "Access Denied", 0, 0, 0⟩ : ProcessInfo).status = "N/A" := by
  exact C8_denied_amended.2.2 70 2 10 (ProcRead.accessDenied (some "svc"))
    ⟨fun _ => none, fun _ => []⟩ _
    (by simp [get_process_info, full_read])

/-- Cache well-formedness: every cached entry is stored under its own
PID.  The code maintains this because entries are only ever written at
`self.process_cache[pid]` with `info.pid = pid`. -/
def cacheInv (st : EngineState) : Prop :=
  ∀ (q : Nat) (p : ProcessInfo × ℚ), st.process_cache q = some p → p.1.pid = q

/-- Erasing a cache entry preserves well-formedness. -/
theorem cacheInv_erase (st : EngineState) (pid : Nat) (h : cacheInv st) :
    cacheInv ⟨cacheErase st.process_cache pid, st.process_cpu_history⟩ := by
  intro q p hq
  simp only [cacheErase] at hq
  by_cases hqp : q = pid
  · simp [hqp] at hq
  · exact h q p (by simpa [hqp] using hq)

/-- A full read returns an info carrying the PID it was asked about. -/
theorem full_read_pid (threshold : ℚ) (pid : Nat) (now : ℚ) (r : ProcRead)
    (st : EngineState) (i : ProcessInfo)
    (h : (full_read threshold pid now r st).1 = some i) : i.pid = pid := by
  cases r with
  | ok name cpu mem u cl exe ct th =>
      simp [full_read] at h
      simp [← h]
  | noSuchProcess => simp [full_read] at h
  | accessDenied nameOpt =>
      cases nameOpt with
      | none => simp [full_read] at h
      | some name =>
          simp [full_read] at h
          simp [← h]

/-- A full read preserves cache well-formedness. -/
theorem full_read_inv (threshold : ℚ) (pid : Nat) (now : ℚ) (r : ProcRead)
    (st : EngineState) (h : cacheInv st) :
    cacheInv (full_read threshold pid now r st).2 := by
  cases r with
  | ok name cpu mem u cl exe ct th =>
      intro q p hq
      simp only [full_read, cacheInsert] at hq
      by_cases hqp : q = pid
      · subst hqp
        simp at hq
        simp [← hq]
      · exact h q p (by simpa [hqp] using hq)
  | noSuchProcess =>
      exact cacheInv_erase st pid h
  | accessDenied nameOpt =>
      cases nameOpt with
      | none => exact h
      | some name =>
          intro q p hq
          simp only [full_read, cacheInsert] at hq
          by_cases hqp : q = pid
          · subst hqp
            simp at hq
            simp [← hq]
          · exact h q p (by simpa [hqp] using hq)

/-- `_get_process_info` returns an info carrying the PID it was asked
about, provided the cache is well-formed. -/
theorem get_process_info_pid (threshold : ℚ) (pid : Nat) (now : ℚ)
    (r : ProcRead) (st : EngineState) (hinv : cacheInv st) (i : ProcessInfo)
    (h : (get_process_info threshold pid now r st).1 = some i) : i.pid = pid := by
  cases hcache : st.process_cache pid with
  | none =>
      rw [get_process_info, hcache] at h
      exact full_read_pid _ _ _ _ _ _ h
  | some p =>
      obtain ⟨cinfo, ts⟩ := p
      by_cases hts : now - ts < cache_ttl
      · cases r with
        | ok name cpu mem u cl exe ct th =>
            rw [get_process_info, hcache] at h
            simp only [if_pos hts] at h
            have hi : i = (cheap_refresh threshold pid now cpu mem cinfo ts st).1 := by
              simpa using h.symm
            have : cinfo.pid = pid := hinv pid (cinfo, ts) hcache
            simp [hi, cheap_refresh, this]
        | noSuchProcess =>
            rw [get_process_info, hcache] at h
            simp only [if_pos hts] at h
            exact full_read_pid _ _ _ _ _ _ h
        | accessDenied nameOpt =>
            rw [get_process_info, hcache] at h
            simp only [if_pos hts] at h
            exact full_read_pid _ _ _ _ _ _ h
      · rw [get_process_info, hcache] at h
        simp only [if_neg hts] at h
        exact full_read_pid _ _ _ _ _ _ h

/-- `_get_process_info` preserves cache well-formedness. -/
theorem get_process_info_inv (threshold : ℚ) (pid : Nat) (now : ℚ)
    (r : ProcRead) (st : EngineState) (hinv : cacheInv st) :
    cacheInv (get_process_info threshold pid now r st).2 := by
  cases hcache : st.process_cache pid with
  | none =>
      rw [get_process_info, hcache]
      exact full_read_inv _ _ _ _ _ hinv
  | some p =>
      obtain ⟨cinfo, ts⟩ := p
      by_cases hts : now - ts < cache_ttl
      · cases r with
        | ok name cpu mem u cl exe ct th =>
            rw [get_process_info, hcache]
            simp only [if_pos hts]
            intro q pr hq
            simp only [cheap_refresh, cacheInsert] at hq
            by_cases hqp : q = pid
            · subst hqp
              simp at hq
              have hpid : cinfo.pid = q := hinv q (cinfo, ts) hcache
              simp [← hq, hpid]
            · exact hinv q pr (by simpa [hqp] using hq)
        | noSuchProcess =>
            rw [get_process_info, hcache]
            simp only [if_pos hts]
            exact full_read_inv _ _ _ _ _ (cacheInv_erase st pid hinv)
        | accessDenied nameOpt =>
            rw [get_process_info, hcache]
            simp only [if_pos hts]
            exact full_read_inv _ _ _ _ _ (cacheInv_erase st pid hinv)
      · rw [get_process_info, hcache]
        simp only [if_neg hts]
        exact full_read_inv _ _ _ _ _ hinv

/-- Every info collected by the per-PID loop of a full tick carries one
of the PIDs it was given. -/
theorem run_tick_mem (threshold now : ℚ) (env : Nat → ProcRead) :
    ∀ (pids : List Nat) (st : EngineState), cacheInv st →
      ∀ i ∈ (run_tick threshold now env st pids).1, i.pid ∈ pids := by
  intro pids
  induction pids with
  | nil =>
      intro st _ i hi
      simp [run_tick] at hi
  | cons pid rest ih =>
      intro st hinv i hi
      simp only [run_tick] at hi
      cases hstep : (get_process_info threshold pid now (env pid) st).1 with
      | some info =>
          rw [hstep] at hi
          simp at hi
          rcases hi with hi | hi
          · subst hi
            have hp := get_process_info_pid threshold pid now (env pid) st hinv i hstep
            rw [hp]
            exact List.mem_cons_self _ _
          · have hrest := ih (get_process_info threshold pid now (env pid) st).2
              (get_process_info_inv threshold pid now (env pid) st hinv) i hi
            exact List.mem_cons_of_mem _ hrest
      | none =>
          rw [hstep] at hi
          simp at hi
          have hrest := ih (get_process_info threshold pid now (env pid) st).2
            (get_process_info_inv threshold pid now (env pid) st hinv) i hi
          exact List.mem_cons_of_mem _ hrest

/-- The per-PID loop of a full tick preserves cache well-formedness. -/
theorem run_tick_inv (threshold now : ℚ) (env : Nat → ProcRead) :
    ∀ (pids : List Nat) (st : EngineState), cacheInv st →
      cacheInv (run_tick threshold now env st pids).2 := by
  intro pids
  induction pids with
  | nil => intro st h; simpa [run_tick] using h
  | cons pid rest ih =>
      intro st hinv
      simp only [run_tick]
      exact ih _ (get_process_info_inv threshold pid now (env pid) st hinv)

/-- C6: every process list published at the end of a full tick, and the
copy `get_process_list` hands out, is sorted in descending order of
rolling-average CPU percent. -/
theorem C6_published_sorted :
    ∀ (threshold now : ℚ) (env : Nat → ProcRead) (st : EngineState)
      (candidates : List (Nat × Option ℚ)) (rawPids : List Nat),
      List.Sorted byAvgDesc
        (monitor_full_tick threshold now env st candidates rawPids).1 ∧
      List.Sorted byAvgDesc
        (get_process_list (monitor_full_tick threshold now env st candidates rawPids).1) := by
  intro threshold now env st candidates rawPids
  constructor <;>
    exact List.sorted_insertionSort byAvgDesc _

/-- C4: the claim "KillProcess returns false when termination is denied"
fails on Windows, where the `AccessDenied` handler falls through to a
`taskkill` invocation and reports success: on platform "win32" a denied
termination of PID 7 returns true, not false. -/
theorem C4_counterexample :
    (kill_process "win32" TermOutcome.accessDenied false [7] 7).1 = true ∧
    ¬ ((kill_process "win32" TermOutcome.accessDenied false [7] 7).1 = false) := by
  constructor <;> decide

/-- C4 (amended): `kill_process` never raises; it returns false when the
process no longer exists, and when termination is denied on any platform
other than "win32" — on "win32" the `taskkill` fallback runs and the call
returns true unless that fallback itself raises.  Whenever the call
returns true the PID's cache entry is evicted immediately.  A process
list published by a full tick can only mention PIDs that were offered by
the enumeration (or the raw-PID fallback), so a PID that exists in
neither is absent from every list published afterwards. -/
theorem C4_kill_amended :
    (∀ (platform : String) (tk : Bool) (cache : List Nat) (pid : Nat),
        (kill_process platform TermOutcome.noSuchProcess tk cache pid).1 = false) ∧
    (∀ (platform : String) (tk : Bool) (cache : List Nat) (pid : Nat),
        platform ≠ "win32" →
        (kill_process platform TermOutcome.accessDenied tk cache pid).1 = false) ∧
    (∀ (cache : List Nat) (pid : Nat),
        (kill_process "win32" TermOutcome.accessDenied false cache pid).1 = true) ∧
    (∀ (platform : String) (outcome : TermOutcome) (tk : Bool)
        (cache : List Nat) (pid : Nat),
        (kill_process platform outcome tk cache pid).1 = true →
        pid ∉ (kill_process platform outcome tk cache pid).2) ∧
    (∀ (threshold now : ℚ) (env : Nat → ProcRead) (st : EngineState)
        (candidates : List (Nat × Option ℚ)) (rawPids : List Nat) (pid : Nat),
        cacheInv st →
        pid ∉ candidates.map Prod.fst → pid ∉ rawPids →
        pid ∉ (monitor_full_tick threshold now env st candidates rawPids).1.map
          ProcessInfo.pid) := by
  refine ⟨?_, ?_, ?_, ?_, ?_⟩
  · intro platform tk cache pid
    rfl
  · intro platform tk cache pid hplat
    simp [kill_process, hplat]
  · intro cache pid
    simp [kill_process]
  · intro platform outcome tk cache pid htrue hmem
    cases outcome with
    | ok => simp [kill_process] at hmem
    | noSuchProcess => simp [kill_process] at htrue
    | otherError => simp [kill_process] at htrue
    | accessDenied =>
        by_cases hplat : platform = "win32"
        · subst hplat
          cases tk with
          | true => simp [kill_process] at htrue
          | false => simp [kill_process] at hmem
        · simp [kill_process, hplat] at htrue
  · intro threshold now env st candidates rawPids pid hinv hcand hraw hmem
    simp only [monitor_full_tick] at hmem
    rw [List.mem_map] at hmem
    obtain ⟨i, hi, hipid⟩ := hmem
    rw [(List.perm_insertionSort byAvgDesc _).mem_iff] at hi
    set pre := ((candidates.insertionSort byCpuDesc).take 100).map Prod.fst with hpre
    have hpre_sub : ∀ x, x ∈ pre → x ∈ candidates.map Prod.fst := by
      intro x hx
      rw [hpre, List.mem_map] at hx
      obtain ⟨c, hc, hcx⟩ := hx
      have hc2 : c ∈ candidates.insertionSort byCpuDesc := List.take_subset _ _ hc
      rw [(List.perm_insertionSort byCpuDesc _).mem_iff] at hc2
      exact hcx ▸ List.mem_map_of_mem Prod.fst hc2
    by_cases hempty : (run_tick threshold now env st pre).1.isEmpty
    · rw [if_pos hempty] at hi
      have hmem2 := run_tick_mem threshold now env (rawPids.take 100)
        (run_tick threshold now env st pre).2
        (run_tick_inv threshold now env pre st hinv) i hi
      exact hraw (List.take_subset _ _ (hipid ▸ hmem2))
    · rw [if_neg hempty] at hi
      have hmem2 := run_tick_mem threshold now env pre st hinv i hi
      exact hcand (hpre_sub _ (hipid ▸ hmem2))

/-- C4 (witness): the amended conjuncts at concrete inputs: a vanished
PID and a denied PID on "linux" give false, a denied PID on "win32"
gives true, a successful kill evicts PID 7 from the cache, and a full
tick offered only PIDs 1 and 2 publishes nothing with PID 7. -/
theorem C4_witness :
    (kill_process "linux" TermOutcome.noSuchProcess false [7] 7).1 = false ∧
    (kill_process "linux" TermOutcome.accessDenied false [7] 7).1 = false ∧
    (kill_process "win32" TermOutcome.accessDenied false [7] 7).1 = true ∧
    (7 : Nat) ∉ (kill_process "linux" TermOutcome.ok false [7] 7).2 ∧
    (7 : Nat) ∉ (monitor_full_tick 70 0 (fun _ => ProcRead.noSuchProcess)
        ⟨fun _ => none, fun _ => []⟩ [(1, some 5)] [2]).1.map ProcessInfo.pid := by
  refine ⟨C4_kill_amended.1 _ _ _ _,
          C4_kill_amended.2.1 _ _ _ _ (by decide),
          C4_kill_amended.2.2.1 _ _,
          C4_kill_amended.2.2.2.1 _ _ _ _ _ (by decide),
          C4_kill_amended.2.2.2.2 70 0 _ _ _ _ 7
            (fun q p hq => by simp at hq) (by decide) (by decide)⟩
